import Mathlib

/-!
Verification of the sql-genius reconciliation core: the DDL parser
(internal/schema/parser.go), the AI response extractor (internal/ai), the
introspection normalizer folds (internal/db/mysql.go, oracle.go) and the
JSON round trip of the canonical schema model (pkg/models/types.go).

Go strings are modelled as Lean `String`; Go slices as Lean `List`
(except where the nil/non-nil distinction of a Go slice matters, where
`Option (List _)` is used with `none` standing for the nil slice).
Go regular expressions are embedded as explicit committed-choice
scanners implementing the leftmost, non-overlapping matching that the
specific pattern performs on the inputs considered; in particular lazy
quantifiers stop at the first possible end. All definitions are
executable so that concrete inputs can be settled by evaluation.
-/

namespace SqlGenius

/-! ## Go string primitives -/

/-- The characters treated as whitespace by the Go regexp class `\s`
and (on ASCII input) by strings.TrimSpace. -/
def goIsSpace (c : Char) : Bool :=
  c = ' ' || c = '\t' || c = '\n' || c = '\r' || c = '\x0b' || c = '\x0c'

/-- The Go regexp class `\w` (ASCII word character). -/
def isWordChar (c : Char) : Bool :=
  c.isAlphanum || c = '_'

/-- strings.TrimSpace (ASCII whitespace). -/
def goTrimSpace (s : String) : String :=
  ⟨((s.data.dropWhile goIsSpace).reverse.dropWhile goIsSpace).reverse⟩

/-- Whether the character list `p` is a leading segment of `s`. -/
def isLeadingSeg : List Char → List Char → Bool
  | [], _ => true
  | _ :: _, [] => false
  | p :: ps, c :: cs => p = c && isLeadingSeg ps cs

/-- strings.HasPrefix. -/
def strStartsWith (s pfx : String) : Bool :=
  isLeadingSeg pfx.data s.data

/-- strings.TrimPrefix. -/
def strDropPfx (s pfx : String) : String :=
  if strStartsWith s pfx then ⟨s.data.drop pfx.data.length⟩ else s

/-- strings.HasSuffix. -/
def strEndsWith (s sfx : String) : Bool :=
  isLeadingSeg sfx.data.reverse s.data.reverse

/-- strings.TrimSuffix. -/
def strDropSfx (s sfx : String) : String :=
  if strEndsWith s sfx then ⟨s.data.take (s.data.length - sfx.data.length)⟩ else s

/-- Whether `pat` occurs as a contiguous segment of the character list. -/
def listInfixSeg (pat : List Char) : List Char → Bool
  | [] => pat.isEmpty
  | c :: t => isLeadingSeg pat (c :: t) || listInfixSeg pat t

/-- strings.Contains. -/
def strContains (s pat : String) : Bool :=
  listInfixSeg pat.data s.data

/-- strings.Split with a one-character separator. -/
def splitChar (sep : Char) : List Char → List (List Char)
  | [] => [[]]
  | c :: t =>
    if c = sep then [] :: splitChar sep t
    else
      match splitChar sep t with
      | [] => [[c]]
      | h :: r => (c :: h) :: r

/-- strings.Split on a one-character separator, at the String level. -/
def strSplit (s : String) (sep : Char) : List String :=
  (splitChar sep s.data).map fun l => ⟨l⟩

/-- strings.ToUpper (ASCII case mapping). -/
def strToUpper (s : String) : String :=
  ⟨s.data.map Char.toUpper⟩

/-- strings.EqualFold (ASCII case folding). -/
def eqFold (a b : String) : Bool :=
  strToUpper a == strToUpper b

/-- strings.Trim with a cutset: removes leading and trailing characters
belonging to `cut` from both ends. -/
def trimCutset (s : String) (cut : List Char) : String :=
  ⟨((s.data.dropWhile (cut.contains ·)).reverse.dropWhile (cut.contains ·)).reverse⟩

/-- strings.Replace with n = 1: the first occurrence of `old` is replaced
by `new`; an empty `old` matches at the beginning of the string. -/
def replFirst (old new : List Char) : List Char → List Char
  | [] => if old.isEmpty then new else []
  | c :: t =>
    if isLeadingSeg old (c :: t) then new ++ (c :: t).drop old.length
    else c :: replFirst old new t

/-- strings.Replace(s, old, new, 1) at the String level. -/
def strReplaceOnce (s old new : String) : String :=
  ⟨replFirst old.data new.data s.data⟩

/-- fmt.Sscanf with a single `%d` verb: skips leading whitespace, reads an
optional sign and a run of decimal digits; when no digit is present the
destination keeps its zero value, modelled by returning 0. -/
def scanInt (s : String) : Int :=
  let t := s.data.dropWhile goIsSpace
  let (neg, t) :=
    match t with
    | '-' :: r => (true, r)
    | '+' :: r => (false, r)
    | _ => (false, t)
  let digits := t.takeWhile Char.isDigit
  if digits.isEmpty then 0
  else
    let n : Nat := digits.foldl (fun acc c => acc * 10 + (c.toNat - 48)) 0
    if neg then -(n : Int) else (n : Int)

/-- The backtick character, one of the DDL quoting characters. -/
def backtickChar : Char := Char.ofNat 96

/-- The single-quote character. -/
def squoteChar : Char := Char.ofNat 39

/-! ## Canonical data model (pkg/models/types.go) -/

/-- models.Column. The Go field Type is named Typ here since Type is a Lean keyword. -/
structure Column where
  Name : String
  Typ : String
  Nullable : Bool := true
  Default : String := ""
  Comment : String := ""
  IsPK : Bool := false
  IsFK : Bool := false
  IsUnique : Bool := false
  IsAutoIncr : Bool := false
  deriving DecidableEq, Repr

/-- models.FK. -/
structure FK where
  Name : String := ""
  Column : String := ""
  RefTable : String := ""
  RefColumn : String := ""
  OnDelete : String := ""
  OnUpdate : String := ""
  deriving DecidableEq, Repr

/-- models.Index. -/
structure Index where
  Name : String
  Columns : List String
  IsUnique : Bool
  Typ : String
  deriving DecidableEq, Repr

/-- models.Table. -/
structure Table where
  Name : String
  Columns : List Column := []
  PrimaryKey : List String := []
  ForeignKeys : List FK := []
  Indexes : List Index := []
  deriving DecidableEq, Repr

/-- models.Schema (the dialect tag DBType is a plain string in Go). -/
structure Schema where
  Database : String := ""
  Tables : List Table := []
  DBType : String := ""
  deriving DecidableEq, Repr

/-- models.Issue. -/
structure Issue where
  Typ : String
  Message : String := ""
  Location : String := ""
  Suggestion : String := ""
  deriving DecidableEq, Repr

/-- models.QueryValidation. The three slice-valued fields use
`Option (List _)` so that the Go nil slice (`none`) is distinguishable
from an allocated empty slice (`some []`). -/
structure QueryValidation where
  IsValid : Bool
  Score : Int
  OriginalQuery : String
  OptimizedQuery : String
  Issues : Option (List Issue)
  Suggestions : Option (List String)
  IndexUsage : Option (List String)
  ExecutionPlan : String := ""
  EstimatedTime : String := ""
  deriving DecidableEq, Repr

/-! ## AI response extractor (internal/ai, parseQueryResponse /
parseValidationResponse / parseIssue) -/

/-- strings.ToLower (ASCII case mapping). -/
def strToLower (s : String) : String :=
  ⟨s.data.map Char.toLower⟩

/-- Go append on a possibly-nil slice: appending to nil allocates. -/
def goAppend {α : Type} (s : Option (List α)) (x : α) : Option (List α) :=
  some (s.getD [] ++ [x])

/-- Loop state of parseQueryResponse: the current section label and the
three accumulators. -/
structure QRState where
  sect : String
  queryLines : List String
  explainLines : List String
  tips : List String

/-- One iteration of the line loop of parseQueryResponse. -/
def queryRespStep (st : QRState) (line : String) : QRState :=
  let trimmed := goTrimSpace line
  if strStartsWith trimmed "SQL:" then { st with sect := "sql" }
  else if strStartsWith trimmed "설명:" then { st with sect := "explain" }
  else if strStartsWith trimmed "최적화 팁:" then { st with sect := "tips" }
  else
    match st.sect with
    | "sql" =>
      if trimmed ≠ "" && trimmed ≠ "```sql" && trimmed ≠ "```" then
        { st with queryLines := st.queryLines ++ [line] }
      else st
    | "explain" =>
      if trimmed ≠ "" then { st with explainLines := st.explainLines ++ [trimmed] }
      else st
    | "tips" =>
      if strStartsWith trimmed "-" || strStartsWith trimmed "•" then
        let tip := strDropPfx trimmed "-"
        let tip := strDropPfx tip "•"
        { st with tips := st.tips ++ [goTrimSpace tip] }
      else st
    | _ => st

/-- parseQueryResponse: the generation/optimization mode extractor.
Returns (query, explanation, tips). -/
def parseQueryResponse (response : String) : String × String × List String :=
  let lines := strSplit response '\n'
  let st := lines.foldl queryRespStep ⟨"", [], [], []⟩
  let query := goTrimSpace (String.intercalate "\n" st.queryLines)
  let explanation := String.intercalate " " st.explainLines
  let query := strDropPfx query "```sql"
  let query := strDropPfx query "```"
  let query := strDropSfx query "```"
  (goTrimSpace query, explanation, st.tips)

/-- parseIssue: parses one bulleted issue line of the validation
response. The stripped field labels are the Korean 위치: and 해결:. -/
def parseIssue (line : String) : Issue :=
  let line := strDropPfx line "-"
  let line := strDropPfx line "•"
  let line := goTrimSpace line
  let (typ, line) :=
    if strContains line "[error]" then ("error", strReplaceOnce line "[error]" "")
    else if strContains line "[warning]" then ("warning", strReplaceOnce line "[warning]" "")
    else if strContains line "[info]" then ("info", strReplaceOnce line "[info]" "")
    else ("info", line)
  let parts := strSplit line '|'
  let message :=
    match parts with
    | [] => ""
    | p :: _ => goTrimSpace p
  let location :=
    match parts.drop 1 with
    | [] => ""
    | p :: _ => goTrimSpace (strDropPfx p "위치:")
  let suggestion :=
    match parts.drop 2 with
    | [] => ""
    | p :: _ => goTrimSpace (strDropPfx p "해결:")
  { Typ := typ, Message := message, Location := location, Suggestion := suggestion }

/-- The final cleanup parseValidationResponse applies to the optimized
query: code-fence trimming, whitespace trimming, and the fallback to the
original query when nothing remains. When no optimized-query section was
ever entered this is what the pre-seeded default goes through. -/
def optimizedCleanup (q : String) : String :=
  let o := goTrimSpace (strDropSfx (strDropPfx q "```sql") "```")
  if o = "" then q else o

/-- The score value the 점수: branch of parseValidationResponse reads
from a line: the line is trimmed, the header dropped, the 점 suffix
dropped, and the remainder scanned as an integer. -/
def lineScore (line : String) : Int :=
  scanInt (strDropSfx (goTrimSpace (strDropPfx (goTrimSpace line) "점수:")) "점")

/-- The trimmed bullet content of a list line: the local variable built
by the indexes/suggestions arms of the validation loop (bullet dropped,
then trimmed). -/
def bulletContent (trimmed : String) : String :=
  goTrimSpace (strDropPfx (strDropPfx trimmed "-") "•")

/-- One iteration of the line loop of parseValidationResponse: the state
is the validation record under construction plus the section label. The
local variables of the Go loop body are inlined. -/
def validationStep (originalQuery : String) (st : QueryValidation × String)
    (line : String) : QueryValidation × String :=
  if strStartsWith (goTrimSpace line) "유효성:" then
    ({ st.1 with IsValid :=
        strContains (strToLower (goTrimSpace (strDropPfx (goTrimSpace line) "유효성:"))) "true" ||
        strContains (goTrimSpace (strDropPfx (goTrimSpace line) "유효성:")) "유효" }, st.2)
  else if strStartsWith (goTrimSpace line) "점수:" then
    (if 0 < lineScore line ∧ lineScore line ≤ 100 then { st.1 with Score := lineScore line }
     else st.1, st.2)
  else if strStartsWith (goTrimSpace line) "문제점:" then (st.1, "issues")
  else if strStartsWith (goTrimSpace line) "인덱스 활용:" then (st.1, "indexes")
  else if strStartsWith (goTrimSpace line) "최적화된 쿼리:" then (st.1, "optimized")
  else if strStartsWith (goTrimSpace line) "실행 계획:" then (st.1, "plan")
  else if strStartsWith (goTrimSpace line) "예상 시간:" then
    ({ st.1 with EstimatedTime := goTrimSpace (strDropPfx (goTrimSpace line) "예상 시간:") }, st.2)
  else if strStartsWith (goTrimSpace line) "개선 제안:" then (st.1, "suggestions")
  else if st.2 = "issues" then
    if strStartsWith (goTrimSpace line) "-" || strStartsWith (goTrimSpace line) "•" then
      (if (parseIssue (goTrimSpace line)).Message ≠ "" then
         { st.1 with Issues := goAppend st.1.Issues (parseIssue (goTrimSpace line)) }
       else st.1, st.2)
    else (st.1, st.2)
  else if st.2 = "indexes" then
    if strStartsWith (goTrimSpace line) "-" || strStartsWith (goTrimSpace line) "•" then
      (if bulletContent (goTrimSpace line) ≠ "" && bulletContent (goTrimSpace line) ≠ "없음" then
         { st.1 with IndexUsage := goAppend st.1.IndexUsage (bulletContent (goTrimSpace line)) }
       else st.1, st.2)
    else (st.1, st.2)
  else if st.2 = "optimized" then
    if goTrimSpace line ≠ "" && !strContains (goTrimSpace line) "원본 쿼리가 최적" then
      if goTrimSpace line ≠ "```sql" && goTrimSpace line ≠ "```" then
        (if st.1.OptimizedQuery == originalQuery then
           { st.1 with OptimizedQuery := goTrimSpace line }
         else { st.1 with OptimizedQuery := st.1.OptimizedQuery ++ "\n" ++ goTrimSpace line }, st.2)
      else (st.1, st.2)
    else (st.1, st.2)
  else if st.2 = "plan" then
    if goTrimSpace line ≠ "" then
      (if st.1.ExecutionPlan == "" then { st.1 with ExecutionPlan := goTrimSpace line }
       else { st.1 with ExecutionPlan := st.1.ExecutionPlan ++ " " ++ goTrimSpace line }, st.2)
    else (st.1, st.2)
  else if st.2 = "suggestions" then
    if strStartsWith (goTrimSpace line) "-" || strStartsWith (goTrimSpace line) "•" then
      (if bulletContent (goTrimSpace line) ≠ "" then
         { st.1 with Suggestions := goAppend st.1.Suggestions (bulletContent (goTrimSpace line)) }
       else st.1, st.2)
    else (st.1, st.2)
  else (st.1, st.2)

/-- The validation record pre-seeded with the defaults before scanning:
validity true, score 50, optimized query = original query, and the three
list fields allocated empty (non-nil). -/
def validationDefaults (originalQuery : String) : QueryValidation :=
  { IsValid := true
    Score := 50
    OriginalQuery := originalQuery
    OptimizedQuery := originalQuery
    Issues := some []
    Suggestions := some []
    IndexUsage := some [] }

/-- The record state after the line loop of parseValidationResponse,
before the final optimized-query cleanup. -/
def vrFold (response originalQuery : String) : QueryValidation :=
  ((strSplit response '\n').foldl (validationStep originalQuery)
    (validationDefaults originalQuery, "")).1

/-- parseValidationResponse: the validation mode extractor. After the
loop the optimized query is fence- and whitespace-trimmed, falling back
to the original query when nothing remains. -/
def parseValidationResponse (response originalQuery : String) : QueryValidation :=
  { vrFold response originalQuery with
    OptimizedQuery :=
      if goTrimSpace (strDropSfx (strDropPfx (vrFold response originalQuery).OptimizedQuery
          "```sql") "```") = "" then
        originalQuery
      else
        goTrimSpace (strDropSfx (strDropPfx (vrFold response originalQuery).OptimizedQuery
          "```sql") "```") }

/-- Classification of the possible outcomes of one validationStep
iteration: each disjunct records which field (if any) the step may have
changed and under what guard, with the section label unchanged except
through the last disjunct. Used by the loop invariants below. -/
def stepOutcome (oq : String) (st : QueryValidation × String) (l : String) : Prop :=
  (strStartsWith (goTrimSpace l) "유효성:" = true ∧
    ∃ b, validationStep oq st l = ({ st.1 with IsValid := b }, st.2)) ∨
  (strStartsWith (goTrimSpace l) "점수:" = true ∧ 0 < lineScore l ∧ lineScore l ≤ 100 ∧
    validationStep oq st l = ({ st.1 with Score := lineScore l }, st.2)) ∨
  (∃ e, validationStep oq st l = ({ st.1 with EstimatedTime := e }, st.2)) ∨
  (st.2 = "optimized" ∧ ∃ o, validationStep oq st l = ({ st.1 with OptimizedQuery := o }, st.2)) ∨
  (st.2 = "plan" ∧ ∃ p, validationStep oq st l = ({ st.1 with ExecutionPlan := p }, st.2)) ∨
  (∃ i, validationStep oq st l = ({ st.1 with Issues := goAppend st.1.Issues i }, st.2)) ∨
  (∃ x, validationStep oq st l = ({ st.1 with IndexUsage := goAppend st.1.IndexUsage x }, st.2)) ∨
  (∃ g, validationStep oq st l = ({ st.1 with Suggestions := goAppend st.1.Suggestions g }, st.2)) ∨
  (∃ sec, validationStep oq st l = (st.1, sec) ∧
    (sec = "optimized" → strStartsWith (goTrimSpace l) "최적화된 쿼리:" = true ∨ st.2 = "optimized"))

/-! ## DDL parser (internal/schema/parser.go)

Each Go regular expression is embedded as a committed-choice scanner on
the character list; the drivers below implement the leftmost,
non-overlapping semantics of FindAllStringSubmatch / FindStringSubmatch
for these patterns, with the fuel argument bounding the number of scan
positions. -/

/-- Case-insensitive literal match (the pattern is given in upper case);
returns the rest of the input. -/
def matchLitCI : List Char → List Char → Option (List Char)
  | [], cs => some cs
  | _ :: _, [] => none
  | p :: ps, c :: cs => if c.toUpper = p then matchLitCI ps cs else none

/-- The regexp piece `\s+`: at least one whitespace character, consumed
greedily. -/
def matchSpaces1 : List Char → Option (List Char)
  | [] => none
  | c :: t => if goIsSpace c then some (t.dropWhile goIsSpace) else none

/-- The regexp piece `(\w+)`: a maximal nonempty run of word characters. -/
def matchWord1 (cs : List Char) : Option (List Char × List Char) :=
  let w := cs.takeWhile isWordChar
  if w.isEmpty then none else some (w, cs.drop w.length)

/-- Opening identifier-quote characters of the DDL patterns. -/
def openQuoteChars : List Char := [backtickChar, '"', squoteChar, '[']

/-- Closing identifier-quote characters of the DDL patterns. -/
def closeQuoteChars : List Char := [backtickChar, '"', squoteChar, ']']

/-- Skips one optional character drawn from `qs` (a `[...]?` piece). -/
def skipOneOf (qs : List Char) : List Char → List Char
  | [] => []
  | c :: t => if qs.contains c then t else c :: t

/-- The regexp piece `[quote]?(\w+)[quote]?`: an identifier with optional
quoting. -/
def quotedWord (cs : List Char) : Option (String × List Char) :=
  match matchWord1 (skipOneOf openQuoteChars cs) with
  | none => none
  | some (w, rest) => some (⟨w⟩, skipOneOf closeQuoteChars rest)

/-- The cutset of strings.Trim used on column names: the quoting
characters. -/
def quoteCutset : List Char := [backtickChar, '"', squoteChar, '[', ']']

/-- Scan driver: the leftmost, non-overlapping FindAll semantics. At
every position the committed matcher is attempted; a match is emitted
and scanning resumes after it. -/
def scanAll {α : Type} (try1 : List Char → Option (α × List Char)) :
    Nat → List Char → List α
  | 0, _ => []
  | _ + 1, [] => []
  | fuel + 1, c :: t =>
    match try1 (c :: t) with
    | some (a, rest) => a :: scanAll try1 fuel rest
    | none => scanAll try1 fuel t

/-- Find driver: the leftmost FindStringSubmatch semantics. -/
def findFirst {α : Type} (try1 : List Char → Option α) :
    Nat → List Char → Option α
  | 0, _ => none
  | _ + 1, [] => none
  | fuel + 1, c :: t =>
    match try1 (c :: t) with
    | some a => some a
    | none => findFirst try1 fuel t

/-- The optional group `(?:IF\s+NOT\s+EXISTS\s+)?` of the table pattern. -/
def tryIfNotExists (cs : List Char) : List Char :=
  match
    (do
      let c1 ← matchLitCI "IF".data cs
      let c2 ← matchSpaces1 c1
      let c3 ← matchLitCI "NOT".data c2
      let c4 ← matchSpaces1 c3
      let c5 ← matchLitCI "EXISTS".data c4
      matchSpaces1 c5)
  with
  | some rest => rest
  | none => cs

/-- One attempt of the table pattern
CREATE\s+TABLE\s+(?:IF\s+NOT\s+EXISTS\s+)?[quote]?(\w+)[quote]?\s*\(([\s\S]*?)\)
at the current position. The lazy body capture stops at the first
closing parenthesis. Returns ((name, body), rest). -/
def tryCreateTableAt (cs : List Char) : Option ((String × String) × List Char) := do
  let c1 ← matchLitCI "CREATE".data cs
  let c2 ← matchSpaces1 c1
  let c3 ← matchLitCI "TABLE".data c2
  let c4 ← matchSpaces1 c3
  let c5 := tryIfNotExists c4
  let (name, c6) ← quotedWord c5
  let c7 := c6.dropWhile goIsSpace
  match c7 with
  | '(' :: r =>
    let body := r.takeWhile (· ≠ ')')
    match r.drop body.length with
    | ')' :: rest => pure ((name, ⟨body⟩), rest)
    | _ => none
  | _ => none

/-- All CREATE TABLE matches of the DDL text, as (name, body) pairs. -/
def scanCreateTables (ddl : String) : List (String × String) :=
  scanAll tryCreateTableAt (ddl.data.length + 1) ddl.data

/-- The column pattern
^\s*[quote]?(\w+)[quote]?\s+(\w+(?:\([^)]+\))?)\s*(.*)$ applied to one
comma clause; the final `(.*)` cannot cross a newline, so the match
fails when a newline survives in the tail. Returns
(name, type, constraint text). -/
def matchColumnLine (line : String) : Option (String × String × String) := do
  let cs := line.data.dropWhile goIsSpace
  let cs := skipOneOf openQuoteChars cs
  let (name, cs) ← matchWord1 cs
  let cs := skipOneOf closeQuoteChars cs
  let cs ← matchSpaces1 cs
  let (tw, cs) ← matchWord1 cs
  let (typ, cs) :=
    match cs with
    | '(' :: r =>
      let inner := r.takeWhile (· ≠ ')')
      if inner.isEmpty then (tw, cs)
      else
        match r.drop inner.length with
        | ')' :: r2 => (tw ++ '(' :: (inner ++ [')']), r2)
        | _ => (tw, cs)
    | _ => (tw, cs)
  let rest := cs.dropWhile goIsSpace
  if rest.contains '\n' then none
  else pure (⟨name⟩, ⟨typ⟩, ⟨rest⟩)

/-- One attempt of the DEFAULT pattern (?i)DEFAULT\s+([^\s,]+). -/
def tryDefaultAt (cs : List Char) : Option String := do
  let c1 ← matchLitCI "DEFAULT".data cs
  let c2 ← matchSpaces1 c1
  let tok := c2.takeWhile fun c => !goIsSpace c && c ≠ ','
  if tok.isEmpty then none else pure ⟨tok⟩

/-- The captured DEFAULT token of a constraint text, when present. -/
def findDefaultTok (s : String) : Option String :=
  findFirst tryDefaultAt (s.data.length + 1) s.data

/-- One attempt of the comment pattern (?i)COMMENT\s+'([^']*)'. -/
def tryCommentAt (cs : List Char) : Option String := do
  let c1 ← matchLitCI "COMMENT".data cs
  let c2 ← matchSpaces1 c1
  match c2 with
  | q :: r =>
    if q = squoteChar then
      let inner := r.takeWhile (· ≠ squoteChar)
      match r.drop inner.length with
      | q2 :: _ => if q2 = squoteChar then pure ⟨inner⟩ else none
      | [] => none
    else none
  | [] => none

/-- The captured COMMENT text of a constraint text, when present. -/
def findCommentTok (s : String) : Option String :=
  findFirst tryCommentAt (s.data.length + 1) s.data

/-- parseColumns: splits the captured table body on commas, skips
table-level constraint clauses, and extracts one Column per matching
clause. -/
def parseColumns (columnsDef : String) : List Column :=
  (strSplit columnsDef ',').filterMap fun line =>
    let line := goTrimSpace line
    let upperLine := strToUpper line
    if strStartsWith upperLine "PRIMARY KEY" || strStartsWith upperLine "FOREIGN KEY" ||
        strStartsWith upperLine "CONSTRAINT" || strStartsWith upperLine "INDEX" ||
        strStartsWith upperLine "KEY" || strStartsWith upperLine "UNIQUE" then
      none
    else
      match matchColumnLine line with
      | none => none
      | some (name, typ, rawConstraints) =>
        let constraints := strToUpper rawConstraints
        some
          { Name := name
            Typ := typ
            Nullable := !strContains constraints "NOT NULL"
            IsPK := strContains constraints "PRIMARY KEY"
            IsUnique := strContains constraints "UNIQUE"
            IsAutoIncr := strContains constraints "AUTO_INCREMENT" ||
              strContains (strToUpper typ) "SERIAL" || strContains constraints "IDENTITY"
            Default := (findDefaultTok rawConstraints).getD ""
            Comment := (findCommentTok rawConstraints).getD "" }

/-- One attempt of the table-level primary key pattern
(?i)PRIMARY\s+KEY\s*\(([^)]+)\). -/
def tryPrimaryKeyAt (cs : List Char) : Option String := do
  let c1 ← matchLitCI "PRIMARY".data cs
  let c2 ← matchSpaces1 c1
  let c3 ← matchLitCI "KEY".data c2
  let c4 := c3.dropWhile goIsSpace
  match c4 with
  | '(' :: r =>
    let inner := r.takeWhile (· ≠ ')')
    if inner.isEmpty then none
    else
      match r.drop inner.length with
      | ')' :: _ => pure ⟨inner⟩
      | _ => none
  | _ => none

/-- parsePrimaryKey: first PRIMARY KEY (...) clause of the body, the
captured column list split, trimmed and de-quoted. -/
def parsePrimaryKey (columnsDef : String) : List String :=
  match findFirst tryPrimaryKeyAt (columnsDef.data.length + 1) columnsDef.data with
  | none => []
  | some inner =>
    (strSplit inner ',').filterMap fun col =>
      let col := goTrimSpace col
      let col := trimCutset col quoteCutset
      if col ≠ "" then some col else none

/-- The mandatory part of the foreign key pattern starting at FOREIGN:
FOREIGN\s+KEY\s*\([q]?(\w+)[q]?\)\s*REFERENCES\s+[q]?(\w+)[q]?\s*\([q]?(\w+)[q]?\).
Returns ((column, refTable, refColumn), rest). -/
def tryFKCore (cs : List Char) : Option ((String × String × String) × List Char) := do
  let c1 ← matchLitCI "FOREIGN".data cs
  let c2 ← matchSpaces1 c1
  let c3 ← matchLitCI "KEY".data c2
  let c4 := c3.dropWhile goIsSpace
  match c4 with
  | '(' :: r =>
    let (col, r2) ← quotedWord r
    (match r2 with
     | ')' :: r3 => do
       let r4 := r3.dropWhile goIsSpace
       let r5 ← matchLitCI "REFERENCES".data r4
       let r6 ← matchSpaces1 r5
       let (refTable, r7) ← quotedWord r6
       let r8 := r7.dropWhile goIsSpace
       (match r8 with
        | '(' :: r9 => do
          let (refCol, r10) ← quotedWord r9
          (match r10 with
           | ')' :: rest => pure ((col, refTable, refCol), rest)
           | _ => none)
        | _ => none)
     | _ => none)
  | _ => none

/-- One attempt of the full foreign key pattern, with the optional
(?:CONSTRAINT\s+(\w+)\s+)? name group; an absent group synthesizes the
name fk_column_refTable. -/
def tryFKAt (cs : List Char) : Option (FK × List Char) :=
  match
    (do
      let c1 ← matchLitCI "CONSTRAINT".data cs
      let c2 ← matchSpaces1 c1
      let (nm, c3) ← matchWord1 c2
      let c4 ← matchSpaces1 c3
      let (core, rest) ← tryFKCore c4
      pure ((⟨nm⟩ : String), core, rest))
  with
  | some (nm, (col, refTable, refCol), rest) =>
    some ({ Name := nm, Column := col, RefTable := refTable, RefColumn := refCol }, rest)
  | none =>
    match tryFKCore cs with
    | some ((col, refTable, refCol), rest) =>
      some ({ Name := "fk_" ++ col ++ "_" ++ refTable, Column := col,
              RefTable := refTable, RefColumn := refCol }, rest)
    | none => none

/-- parseForeignKeys: all foreign key matches of the table body. -/
def parseForeignKeys (columnsDef : String) : List FK :=
  scanAll tryFKAt (columnsDef.data.length + 1) columnsDef.data

/-- One attempt of the index pattern
(?i)CREATE\s+(UNIQUE\s+)?INDEX\s+[q]?(\w+)[q]?\s+ON\s+[q]?(\w+)[q]?\s*\(([^)]+)\).
Returns ((isUnique, name, table, column text), rest). -/
def tryIndexAt (cs : List Char) : Option ((Bool × String × String × String) × List Char) := do
  let c1 ← matchLitCI "CREATE".data cs
  let c2 ← matchSpaces1 c1
  let (uniq, c3) :=
    match (do
        let u1 ← matchLitCI "UNIQUE".data c2
        matchSpaces1 u1) with
    | some u2 => (true, u2)
    | none => (false, c2)
  let c4 ← matchLitCI "INDEX".data c3
  let c5 ← matchSpaces1 c4
  let (name, c6) ← quotedWord c5
  let c7 ← matchSpaces1 c6
  let c8 ← matchLitCI "ON".data c7
  let c9 ← matchSpaces1 c8
  let (tbl, c10) ← quotedWord c9
  let c11 := c10.dropWhile goIsSpace
  match c11 with
  | '(' :: r =>
    let inner := r.takeWhile (· ≠ ')')
    if inner.isEmpty then none
    else
      match r.drop inner.length with
      | ')' :: rest => pure ((uniq, name, tbl, ⟨inner⟩), rest)
      | _ => none
  | _ => none

/-- All CREATE INDEX matches of the DDL text. -/
def scanIndexStmts (ddl : String) : List (Bool × String × String × String) :=
  scanAll tryIndexAt (ddl.data.length + 1) ddl.data

/-- Column token cleanup of an index statement: trim, de-quote, drop a
trailing ASC/DESC qualifier, skip empties. -/
def indexStmtColumns (colStr : String) : List String :=
  (strSplit colStr ',').filterMap fun col =>
    let col := goTrimSpace col
    let col := trimCutset col quoteCutset
    let col := ((strSplit col ' ').headD "")
    if col ≠ "" then some col else none

/-- Appends the index to the first table whose name matches
case-insensitively (the break in the Go loop). -/
def attachIndex (tableName : String) (idx : Index) : List Table → List Table
  | [] => []
  | t :: ts =>
    if eqFold t.Name tableName then { t with Indexes := t.Indexes ++ [idx] } :: ts
    else t :: attachIndex tableName idx ts

/-- parseIndexes: scans the whole DDL text for CREATE INDEX statements
and attaches each to its table. -/
def parseIndexes (ddl : String) (tables : List Table) : List Table :=
  (scanIndexStmts ddl).foldl
    (fun ts m =>
      match m with
      | (uniq, name, tbl, colStr) =>
        attachIndex tbl
          { Name := name, Columns := indexStmtColumns colStr, IsUnique := uniq, Typ := "BTREE" } ts)
    tables

/-- The Schema built by ParseDDL. -/
def parseDDLSchema (ddl : String) (dbType : String) : Schema :=
  let tables := (scanCreateTables ddl).map fun m =>
    { Name := m.1
      Columns := parseColumns m.2
      PrimaryKey := parsePrimaryKey m.2
      ForeignKeys := parseForeignKeys m.2
      Indexes := [] : Table }
  { DBType := dbType, Tables := parseIndexes ddl tables }

/-- ParseDDL: the Go function returns (schema, nil) unconditionally; the
error side of the Except is never used. -/
def ParseDDL (ddl : String) (dbType : String) : Except String Schema :=
  .ok (parseDDLSchema ddl dbType)

/-! ## Introspection normalizer folds (internal/db/mysql.go, oracle.go)

The row sets returned by the metadata queries are modelled as lists of
row records, in the order the source supplies them. The Go
`map[string]*models.Index` is modelled as an association list keyed by
index name; the Go code mutates the pointed-to Index in place, which the
association-list update mirrors. The final `for ... range indexMap` loop
iterates the map in an order Go leaves unspecified; the embedding lists
the entries in insertion order, which is one admissible order. -/

/-- One row of the MySQL index metadata query
(INDEX_NAME, COLUMN_NAME, NON_UNIQUE, INDEX_TYPE), ordered by
INDEX_NAME, SEQ_IN_INDEX. -/
structure MySQLIndexRow where
  indexName : String
  columnName : String
  nonUnique : Int
  indexType : String
  deriving DecidableEq, Repr

/-- One row of the Oracle index metadata query
(index_name, column_name, uniqueness, index_type), ordered by
index_name, column_position. -/
structure OracleIndexRow where
  indexName : String
  columnName : String
  uniqueness : String
  indexType : String
  deriving DecidableEq, Repr

/-- One row of a foreign key metadata query
(constraint name, column, referenced table, referenced column). -/
structure FKRow where
  name : String
  column : String
  refTable : String
  refColumn : String
  deriving DecidableEq, Repr

/-- One step of the keyed index fold: the row either extends the column
list of the entry already present under its index name, or creates a new
entry via `mkNew`. -/
def idxFoldStep {ρ : Type} (key colOf : ρ → String) (mkNew : ρ → Index) :
    List (String × Index) → ρ → List (String × Index)
  | [], r => [(key r, mkNew r)]
  | (k, idx) :: t, r =>
    if k = key r then (k, { idx with Columns := idx.Columns ++ [colOf r] }) :: t
    else (k, idx) :: idxFoldStep key colOf mkNew t r

/-- The keyed index fold over a whole row set, starting from the empty
map. -/
def idxFold {ρ : Type} (key colOf : ρ → String) (mkNew : ρ → Index)
    (rows : List ρ) : List (String × Index) :=
  rows.foldl (idxFoldStep key colOf mkNew) []

/-- Association lookup in the folded map. -/
def lookupIdx (name : String) : List (String × Index) → Option Index
  | [] => none
  | (k, idx) :: t => if k = name then some idx else lookupIdx name t

/-- MySQLConnector.getIndexes: fold of the rows into the name-keyed map. -/
def mysqlIndexMap (rows : List MySQLIndexRow) : List (String × Index) :=
  idxFold (·.indexName) (·.columnName)
    (fun r => { Name := r.indexName, Columns := [r.columnName],
                IsUnique := r.nonUnique = (0 : Int), Typ := r.indexType })
    rows

/-- The index list MySQLConnector.getIndexes returns (map entries, here
in insertion order). -/
def mysqlGetIndexes (rows : List MySQLIndexRow) : List Index :=
  (mysqlIndexMap rows).map Prod.snd

/-- OracleConnector.getIndexes: the same fold with the Oracle uniqueness
token. -/
def oracleIndexMap (rows : List OracleIndexRow) : List (String × Index) :=
  idxFold (·.indexName) (·.columnName)
    (fun r => { Name := r.indexName, Columns := [r.columnName],
                IsUnique := r.uniqueness = "UNIQUE", Typ := r.indexType })
    rows

/-- The index list OracleConnector.getIndexes returns. -/
def oracleGetIndexes (rows : List OracleIndexRow) : List Index :=
  (oracleIndexMap rows).map Prod.snd

/-- The FK record one metadata row scans into. -/
def fkOfRow (r : FKRow) : FK :=
  { Name := r.name, Column := r.column, RefTable := r.refTable, RefColumn := r.refColumn }

/-- MySQLConnector.getForeignKeys: each row is appended as its own FK
record; rows are not merged by constraint name. -/
def mysqlGetForeignKeys (rows : List FKRow) : List FK :=
  rows.foldl (fun fks r => fks ++ [fkOfRow r]) []

/-! ## JSON form of the Schema (encoding/json with the struct tags of
pkg/models/types.go)

ParseJSON is json.Unmarshal into models.Schema; ToJSON is
json.MarshalIndent(schema, "", "  "). The reflection-driven Go codec is
embedded as an explicit codec following the struct tags: a JSON value
type, a renderer reproducing the MarshalIndent layout and escaping, a
text parser, and per-record encode/decode functions. Go renders a nil
slice as null and decodes null into a nil slice; the model tracks only
slice contents, so every slice renders as an array and null decodes to
the empty list. -/

/-- A JSON value; numeric literals keep their lexeme. -/
inductive Json where
  | null : Json
  | bool : Bool → Json
  | num : String → Json
  | str : String → Json
  | arr : List Json → Json
  | obj : List (String × Json) → Json

/-- Lowercase hexadecimal digit, as the Go encoder emits. -/
def hexDigit (n : Nat) : Char :=
  if n < 10 then Char.ofNat (48 + n) else Char.ofNat (87 + n)

/-- Go string escaping with the default HTML escaping: quote, backslash,
newline, carriage return and tab get two-character escapes, other
control characters and the HTML-sensitive characters get \u escapes. -/
def escapeChar (c : Char) : List Char :=
  if c = '"' then ['\\', '"']
  else if c = '\\' then ['\\', '\\']
  else if c = '\n' then ['\\', 'n']
  else if c = '\r' then ['\\', 'r']
  else if c = '\t' then ['\\', 't']
  else if c.toNat < 32 then
    ['\\', 'u', '0', '0', hexDigit (c.toNat / 16), hexDigit (c.toNat % 16)]
  else if c = '<' then ['\\', 'u', '0', '0', '3', 'c']
  else if c = '>' then ['\\', 'u', '0', '0', '3', 'e']
  else if c = '&' then ['\\', 'u', '0', '0', '2', '6']
  else if c = Char.ofNat 8232 then ['\\', 'u', '2', '0', '2', '8']
  else if c = Char.ofNat 8233 then ['\\', 'u', '2', '0', '2', '9']
  else [c]

/-- A rendered JSON string literal. -/
def renderString (s : String) : String :=
  ⟨'"' :: (s.data.flatMap escapeChar ++ ['"'])⟩

/-- The indentation of MarshalIndent(-, "", "  ") at a nesting depth. -/
def padN (depth : Nat) : String :=
  ⟨List.replicate (2 * depth) ' '⟩

mutual

/-- The MarshalIndent layout: empty composites stay compact, non-empty
composites put every element on its own deeper-indented line. -/
def renderJson (depth : Nat) : Json → String
  | .null => "null"
  | .bool b => if b then "true" else "false"
  | .num s => s
  | .str s => renderString s
  | .arr [] => "[]"
  | .arr (x :: xs) => "[\n" ++ renderItems depth (x :: xs) ++ "\n" ++ padN depth ++ "]"
  | .obj [] => "\x7b\x7d"
  | .obj (f :: fs) => "\x7b\n" ++ renderFields depth (f :: fs) ++ "\n" ++ padN depth ++ "\x7d"

/-- Array elements, one per line, comma separated. -/
def renderItems (depth : Nat) : List Json → String
  | [] => ""
  | [x] => padN (depth + 1) ++ renderJson (depth + 1) x
  | x :: y :: t =>
    padN (depth + 1) ++ renderJson (depth + 1) x ++ ",\n" ++ renderItems depth (y :: t)

/-- Object members, one per line, comma separated, a space after the
colon. -/
def renderFields (depth : Nat) : List (String × Json) → String
  | [] => ""
  | [(k, v)] => padN (depth + 1) ++ renderString k ++ ": " ++ renderJson (depth + 1) v
  | (k, v) :: g :: t =>
    padN (depth + 1) ++ renderString k ++ ": " ++ renderJson (depth + 1) v ++ ",\n" ++
      renderFields depth (g :: t)

end

/-- JSON insignificant whitespace. -/
def jsonIsSpace (c : Char) : Bool :=
  c = ' ' || c = '\t' || c = '\n' || c = '\r'

/-- Value of one hexadecimal digit. -/
def hexVal (c : Char) : Option Nat :=
  if '0' ≤ c ∧ c ≤ '9' then some (c.toNat - 48)
  else if 'a' ≤ c ∧ c ≤ 'f' then some (c.toNat - 87)
  else if 'A' ≤ c ∧ c ≤ 'F' then some (c.toNat - 55)
  else none

/-- Lexes the body of a JSON string literal after the opening quote,
decoding escapes (a \u escape becomes the scalar it denotes when valid;
surrogate pairing is not modelled). -/
def parseStringChars : Nat → List Char → Except String (List Char × List Char)
  | 0, _ => .error "string fuel"
  | _ + 1, [] => .error "unterminated string"
  | fuel + 1, c :: t =>
    if c = '"' then .ok ([], t)
    else if c = '\\' then
      match t with
      | [] => .error "unterminated escape"
      | e :: t2 =>
        if e = 'u' then
          match t2 with
          | a :: b :: c3 :: d :: t3 =>
            match hexVal a, hexVal b, hexVal c3, hexVal d with
            | some va, some vb, some vc, some vd => do
              let n := ((va * 16 + vb) * 16 + vc) * 16 + vd
              let ch := if h : n.isValidChar then Char.ofNatAux n h else Char.ofNat 65533
              let (rest, tail) ← parseStringChars fuel t3
              pure (ch :: rest, tail)
            | _, _, _, _ => .error "bad unicode escape"
          | _ => .error "short unicode escape"
        else do
          let ch ←
            if e = '"' then pure '"'
            else if e = '\\' then pure '\\'
            else if e = '/' then pure '/'
            else if e = 'b' then pure '\x08'
            else if e = 'f' then pure '\x0c'
            else if e = 'n' then pure '\n'
            else if e = 'r' then pure '\r'
            else if e = 't' then pure '\t'
            else .error "bad escape"
          let (rest, tail) ← parseStringChars fuel t2
          pure (ch :: rest, tail)
    else do
      let (rest, tail) ← parseStringChars fuel t
      pure (c :: rest, tail)

/-- Characters a numeric lexeme may contain. -/
def isNumChar (c : Char) : Bool :=
  c.isDigit || c = '-' || c = '+' || c = '.' || c = 'e' || c = 'E'

mutual

/-- Recursive-descent JSON value parser; the fuel bounds the recursion
and is sized from the input length by the caller. -/
def parseJsonValue : Nat → List Char → Except String (Json × List Char)
  | 0, _ => .error "value fuel"
  | fuel + 1, cs =>
    match cs.dropWhile jsonIsSpace with
    | [] => .error "unexpected end of input"
    | c :: t =>
      if c = '{' then parseObjRest fuel t []
      else if c = '[' then parseArrRest fuel t []
      else if c = '"' then do
        let (content, rest) ← parseStringChars (t.length + 1) t
        pure (.str ⟨content⟩, rest)
      else if isLeadingSeg "true".data (c :: t) then .ok (.bool true, (c :: t).drop 4)
      else if isLeadingSeg "false".data (c :: t) then .ok (.bool false, (c :: t).drop 5)
      else if isLeadingSeg "null".data (c :: t) then .ok (.null, (c :: t).drop 4)
      else if c.isDigit || c = '-' then
        let lexeme := (c :: t).takeWhile isNumChar
        .ok (.num ⟨lexeme⟩, (c :: t).drop lexeme.length)
      else .error "unexpected character"

/-- Elements of an array after the opening bracket. -/
def parseArrRest : Nat → List Char → List Json → Except String (Json × List Char)
  | 0, _, _ => .error "array fuel"
  | fuel + 1, cs, acc =>
    match cs.dropWhile jsonIsSpace with
    | [] => .error "unterminated array"
    | c :: t =>
      if c = ']' ∧ acc.isEmpty then .ok (.arr [], t)
      else do
        let (v, rest) ← parseJsonValue fuel (c :: t)
        match rest.dropWhile jsonIsSpace with
        | ',' :: t2 => parseArrRest fuel t2 (acc ++ [v])
        | ']' :: t2 => pure (.arr (acc ++ [v]), t2)
        | _ => .error "expected comma or closing bracket"

/-- Members of an object after the opening brace. -/
def parseObjRest : Nat → List Char → List (String × Json) →
    Except String (Json × List Char)
  | 0, _, _ => .error "object fuel"
  | fuel + 1, cs, acc =>
    match cs.dropWhile jsonIsSpace with
    | [] => .error "unterminated object"
    | c :: t =>
      if c = '}' ∧ acc.isEmpty then .ok (.obj [], t)
      else if c = '"' then do
        let (key, rest) ← parseStringChars (t.length + 1) t
        match rest.dropWhile jsonIsSpace with
        | ':' :: t2 => do
          let (v, rest2) ← parseJsonValue fuel t2
          match rest2.dropWhile jsonIsSpace with
          | ',' :: t3 => parseObjRest fuel t3 (acc ++ [(⟨key⟩, v)])
          | '}' :: t3 => pure (.obj (acc ++ [(⟨key⟩, v)]), t3)
          | _ => .error "expected comma or closing brace"
        | _ => .error "expected colon"
      else .error "expected object key"

end

/-- Parses a complete JSON document; trailing non-whitespace is an
error, as in json.Unmarshal. -/
def parseJsonText (s : String) : Except String Json := do
  let (v, rest) ← parseJsonValue (2 * s.data.length + 4) s.data
  if (rest.dropWhile jsonIsSpace).isEmpty then pure v
  else .error "trailing data"

/-- Object member lookup as the Go decoder performs it: keys are
processed in order and later occurrences overwrite, with
case-insensitive field-name matching. -/
def jLookup (k : String) (fields : List (String × Json)) : Option Json :=
  fields.foldl (fun acc f => if eqFold f.1 k then some f.2 else acc) none

/-- Decodes a string-typed struct field: an absent key or a null leaves
the zero value. -/
def getStr (fields : List (String × Json)) (k : String) : Except String String :=
  match jLookup k fields with
  | none => .ok ""
  | some .null => .ok ""
  | some (.str s) => .ok s
  | some _ => .error ("cannot decode field " ++ k ++ " into string")

/-- Decodes a bool-typed struct field. -/
def getBool (fields : List (String × Json)) (k : String) : Except String Bool :=
  match jLookup k fields with
  | none => .ok false
  | some .null => .ok false
  | some (.bool b) => .ok b
  | some _ => .error ("cannot decode field " ++ k ++ " into bool")

/-- Decodes a slice-typed struct field: absent or null is the nil slice,
modelled as the empty list. -/
def getArr (fields : List (String × Json)) (k : String) : Except String (List Json) :=
  match jLookup k fields with
  | none => .ok []
  | some .null => .ok []
  | some (.arr l) => .ok l
  | some _ => .error ("cannot decode field " ++ k ++ " into slice")

/-- Element-wise decoding of a JSON array. -/
def decodeArr {α : Type} (dec : Json → Except String α) :
    List Json → Except String (List α)
  | [] => .ok []
  | j :: t => do
    let x ← dec j
    let xs ← decodeArr dec t
    pure (x :: xs)

/-- Decodes one element of "columns": tag names per models.Column. -/
def decodeColumn (j : Json) : Except String Column :=
  match j with
  | .obj fields => do
    let name ← getStr fields "name"
    let typ ← getStr fields "type"
    let nullable ← getBool fields "nullable"
    let dflt ← getStr fields "default"
    let comment ← getStr fields "comment"
    let isPK ← getBool fields "is_pk"
    let isFK ← getBool fields "is_fk"
    let isUnique ← getBool fields "is_unique"
    let isAutoIncr ← getBool fields "is_auto_incr"
    pure { Name := name, Typ := typ, Nullable := nullable, Default := dflt,
           Comment := comment, IsPK := isPK, IsFK := isFK, IsUnique := isUnique,
           IsAutoIncr := isAutoIncr }
  | .null => .ok { Name := "", Typ := "", Nullable := false }
  | _ => .error "cannot decode column"

/-- Decodes one element of "foreign_keys": tag names per models.FK. -/
def decodeFK (j : Json) : Except String FK :=
  match j with
  | .obj fields => do
    let name ← getStr fields "name"
    let column ← getStr fields "column"
    let refTable ← getStr fields "ref_table"
    let refColumn ← getStr fields "ref_column"
    let onDelete ← getStr fields "on_delete"
    let onUpdate ← getStr fields "on_update"
    pure { Name := name, Column := column, RefTable := refTable,
           RefColumn := refColumn, OnDelete := onDelete, OnUpdate := onUpdate }
  | .null => .ok {}
  | _ => .error "cannot decode foreign key"

/-- Decodes a JSON string, for the elements of string-slice fields. -/
def decodeStr (j : Json) : Except String String :=
  match j with
  | .str s => .ok s
  | .null => .ok ""
  | _ => .error "cannot decode string"

/-- Decodes one element of "indexes": tag names per models.Index. -/
def decodeIndex (j : Json) : Except String Index :=
  match j with
  | .obj fields => do
    let name ← getStr fields "name"
    let cols ← getArr fields "columns"
    let columns ← decodeArr decodeStr cols
    let isUnique ← getBool fields "is_unique"
    let typ ← getStr fields "type"
    pure { Name := name, Columns := columns, IsUnique := isUnique, Typ := typ }
  | .null => .ok { Name := "", Columns := [], IsUnique := false, Typ := "" }
  | _ => .error "cannot decode index"

/-- Decodes one element of "tables": tag names per models.Table. -/
def decodeTable (j : Json) : Except String Table :=
  match j with
  | .obj fields => do
    let name ← getStr fields "name"
    let columns ← decodeArr decodeColumn (← getArr fields "columns")
    let primaryKey ← decodeArr decodeStr (← getArr fields "primary_key")
    let foreignKeys ← decodeArr decodeFK (← getArr fields "foreign_keys")
    let indexes ← decodeArr decodeIndex (← getArr fields "indexes")
    pure { Name := name, Columns := columns, PrimaryKey := primaryKey,
           ForeignKeys := foreignKeys, Indexes := indexes }
  | .null => .ok { Name := "" }
  | _ => .error "cannot decode table"

/-- Decodes a models.Schema document. -/
def decodeSchema (j : Json) : Except String Schema :=
  match j with
  | .obj fields => do
    let database ← getStr fields "database"
    let tables ← decodeArr decodeTable (← getArr fields "tables")
    let dbType ← getStr fields "db_type"
    pure { Database := database, Tables := tables, DBType := dbType }
  | .null => .ok {}
  | _ => .error "cannot decode schema"

/-- Encoding of a Column per its struct tags; default and comment carry
omitempty. -/
def encodeColumn (c : Column) : Json :=
  .obj ([("name", .str c.Name), ("type", .str c.Typ), ("nullable", .bool c.Nullable)] ++
    (if c.Default ≠ "" then [("default", .str c.Default)] else []) ++
    (if c.Comment ≠ "" then [("comment", .str c.Comment)] else []) ++
    [("is_pk", .bool c.IsPK), ("is_fk", .bool c.IsFK),
     ("is_unique", .bool c.IsUnique), ("is_auto_incr", .bool c.IsAutoIncr)])

/-- Encoding of an FK per its struct tags; on_delete and on_update carry
omitempty. -/
def encodeFK (fk : FK) : Json :=
  .obj ([("name", .str fk.Name), ("column", .str fk.Column),
    ("ref_table", .str fk.RefTable), ("ref_column", .str fk.RefColumn)] ++
    (if fk.OnDelete ≠ "" then [("on_delete", .str fk.OnDelete)] else []) ++
    (if fk.OnUpdate ≠ "" then [("on_update", .str fk.OnUpdate)] else []))

/-- Encoding of an Index per its struct tags. -/
def encodeIndex (idx : Index) : Json :=
  .obj [("name", .str idx.Name), ("columns", .arr (idx.Columns.map .str)),
    ("is_unique", .bool idx.IsUnique), ("type", .str idx.Typ)]

/-- Encoding of a Table per its struct tags. -/
def encodeTable (t : Table) : Json :=
  .obj [("name", .str t.Name),
    ("columns", .arr (t.Columns.map encodeColumn)),
    ("primary_key", .arr (t.PrimaryKey.map .str)),
    ("foreign_keys", .arr (t.ForeignKeys.map encodeFK)),
    ("indexes", .arr (t.Indexes.map encodeIndex))]

/-- Encoding of a Schema per its struct tags. -/
def encodeSchema (s : Schema) : Json :=
  .obj [("database", .str s.Database),
    ("tables", .arr (s.Tables.map encodeTable)),
    ("db_type", .str s.DBType)]

/-- ParseJSON: json.Unmarshal of the document into models.Schema. -/
def ParseJSON (data : String) : Except String Schema := do
  let j ← parseJsonText data
  decodeSchema j

/-- ToJSON: json.MarshalIndent(schema, "", "  "). -/
def ToJSON (s : Schema) : String :=
  renderJson 0 (encodeSchema s)


/-- A concrete schema exercising every record type, used to witness the
canonical-form string-level round trip. -/
def sampleSchema : Schema :=
  { Database := "shop", DBType := "mysql",
    Tables := [{ Name := "users",
                 Columns := [{ Name := "id", Typ := "INT", Nullable := false, IsPK := true }],
                 PrimaryKey := ["id"],
                 ForeignKeys := [{ Name := "fk_a_b", Column := "a", RefTable := "b", RefColumn := "c" }],
                 Indexes := [{ Name := "i", Columns := ["x", "y"], IsUnique := true, Typ := "BTREE" }] }] }

/-! ## Helper lemmas -/

/-- Attaching an index to an empty table list is a no-op. -/
theorem attachIndex_nil (tn : String) (idx : Index) : attachIndex tn idx [] = [] := rfl

/-- parseIndexes cannot invent tables: on an empty table list it returns
the empty list. -/
theorem parseIndexes_nil (ddl : String) : parseIndexes ddl [] = [] := by
  unfold parseIndexes
  induction scanIndexStmts ddl with
  | nil => rfl
  | cons m t ih =>
    obtain ⟨uniq, name, tbl, colStr⟩ := m
    simpa [List.foldl, attachIndex_nil] using ih

/-- Every validationStep call lands in one of the stepOutcome shapes. -/
theorem validationStep_outcome (oq : String) (st : QueryValidation × String) (l : String) :
    stepOutcome oq st l := by
  unfold stepOutcome
  by_cases h1 : strStartsWith (goTrimSpace l) "유효성:" = true
  · exact Or.inl ⟨h1, _, by unfold validationStep; rw [if_pos h1]⟩
  by_cases h2 : strStartsWith (goTrimSpace l) "점수:" = true
  · by_cases h2a : 0 < lineScore l ∧ lineScore l ≤ 100
    · exact Or.inr (Or.inl ⟨h2, h2a.1, h2a.2, by unfold validationStep; rw [if_neg h1, if_pos h2, if_pos h2a]⟩)
    · refine Or.inr (Or.inr (Or.inr (Or.inr (Or.inr (Or.inr (Or.inr (Or.inr
        ⟨st.2, (by unfold validationStep; rw [if_neg h1, if_pos h2, if_neg h2a]),
         fun hsec => Or.inr hsec⟩)))))))
  by_cases h3 : strStartsWith (goTrimSpace l) "문제점:" = true
  · exact Or.inr (Or.inr (Or.inr (Or.inr (Or.inr (Or.inr (Or.inr (Or.inr
      ⟨"issues", (by unfold validationStep; rw [if_neg h1, if_neg h2, if_pos h3]),
       fun hsec => absurd hsec (by decide)⟩)))))))
  by_cases h4 : strStartsWith (goTrimSpace l) "인덱스 활용:" = true
  · exact Or.inr (Or.inr (Or.inr (Or.inr (Or.inr (Or.inr (Or.inr (Or.inr
      ⟨"indexes", (by unfold validationStep; rw [if_neg h1, if_neg h2, if_neg h3, if_pos h4]),
       fun hsec => absurd hsec (by decide)⟩)))))))
  by_cases h5 : strStartsWith (goTrimSpace l) "최적화된 쿼리:" = true
  · exact Or.inr (Or.inr (Or.inr (Or.inr (Or.inr (Or.inr (Or.inr (Or.inr
      ⟨"optimized", (by unfold validationStep; rw [if_neg h1, if_neg h2, if_neg h3, if_neg h4, if_pos h5]),
       fun _ => Or.inl h5⟩)))))))
  by_cases h6 : strStartsWith (goTrimSpace l) "실행 계획:" = true
  · exact Or.inr (Or.inr (Or.inr (Or.inr (Or.inr (Or.inr (Or.inr (Or.inr
      ⟨"plan", (by unfold validationStep; rw [if_neg h1, if_neg h2, if_neg h3, if_neg h4, if_neg h5, if_pos h6]),
       fun hsec => absurd hsec (by decide)⟩)))))))
  by_cases h7 : strStartsWith (goTrimSpace l) "예상 시간:" = true
  · exact Or.inr (Or.inr (Or.inl ⟨_, by unfold validationStep; rw [if_neg h1, if_neg h2, if_neg h3, if_neg h4, if_neg h5, if_neg h6, if_pos h7]⟩))
  by_cases h8 : strStartsWith (goTrimSpace l) "개선 제안:" = true
  · exact Or.inr (Or.inr (Or.inr (Or.inr (Or.inr (Or.inr (Or.inr (Or.inr
      ⟨"suggestions", (by unfold validationStep; rw [if_neg h1, if_neg h2, if_neg h3, if_neg h4, if_neg h5, if_neg h6, if_neg h7, if_pos h8]),
       fun hsec => absurd hsec (by decide)⟩)))))))
  -- section arms
  by_cases hA : st.2 = "issues"
  · by_cases hb : (strStartsWith (goTrimSpace l) "-" || strStartsWith (goTrimSpace l) "•") = true
    · by_cases hm : (parseIssue (goTrimSpace l)).Message ≠ ""
      · exact Or.inr (Or.inr (Or.inr (Or.inr (Or.inr (Or.inl ⟨_, by unfold validationStep; rw [if_neg h1, if_neg h2, if_neg h3, if_neg h4, if_neg h5, if_neg h6, if_neg h7, if_neg h8, if_pos hA, if_pos hb, if_pos hm]⟩)))))
      · exact Or.inr (Or.inr (Or.inr (Or.inr (Or.inr (Or.inr (Or.inr (Or.inr
          ⟨st.2, (by unfold validationStep; rw [if_neg h1, if_neg h2, if_neg h3, if_neg h4, if_neg h5, if_neg h6, if_neg h7, if_neg h8, if_pos hA, if_pos hb, if_neg hm]),
           fun hsec => Or.inr hsec⟩)))))))
    · exact Or.inr (Or.inr (Or.inr (Or.inr (Or.inr (Or.inr (Or.inr (Or.inr
        ⟨st.2, (by unfold validationStep; rw [if_neg h1, if_neg h2, if_neg h3, if_neg h4, if_neg h5, if_neg h6, if_neg h7, if_neg h8, if_pos hA, if_neg hb]),
         fun hsec => Or.inr hsec⟩)))))))
  by_cases hB : st.2 = "indexes"
  · by_cases hb : (strStartsWith (goTrimSpace l) "-" || strStartsWith (goTrimSpace l) "•") = true
    · by_cases hc : (bulletContent (goTrimSpace l) ≠ "" && bulletContent (goTrimSpace l) ≠ "없음") = true
      · exact Or.inr (Or.inr (Or.inr (Or.inr (Or.inr (Or.inr (Or.inl ⟨_, by unfold validationStep; rw [if_neg h1, if_neg h2, if_neg h3, if_neg h4, if_neg h5, if_neg h6, if_neg h7, if_neg h8, if_neg hA, if_pos hB, if_pos hb, if_pos hc]⟩))))))
      · exact Or.inr (Or.inr (Or.inr (Or.inr (Or.inr (Or.inr (Or.inr (Or.inr
          ⟨st.2, (by unfold validationStep; rw [if_neg h1, if_neg h2, if_neg h3, if_neg h4, if_neg h5, if_neg h6, if_neg h7, if_neg h8, if_neg hA, if_pos hB, if_pos hb, if_neg hc]),
           fun hsec => Or.inr hsec⟩)))))))
    · exact Or.inr (Or.inr (Or.inr (Or.inr (Or.inr (Or.inr (Or.inr (Or.inr
        ⟨st.2, (by unfold validationStep; rw [if_neg h1, if_neg h2, if_neg h3, if_neg h4, if_neg h5, if_neg h6, if_neg h7, if_neg h8, if_neg hA, if_pos hB, if_neg hb]),
         fun hsec => Or.inr hsec⟩)))))))
  by_cases hC : st.2 = "optimized"
  · by_cases hc1 : (goTrimSpace l ≠ "" && !strContains (goTrimSpace l) "원본 쿼리가 최적") = true
    · by_cases hc2 : (goTrimSpace l ≠ "```sql" && goTrimSpace l ≠ "```") = true
      · by_cases hc3 : (st.1.OptimizedQuery == oq) = true
        · exact Or.inr (Or.inr (Or.inr (Or.inl ⟨hC, _, by unfold validationStep; rw [if_neg h1, if_neg h2, if_neg h3, if_neg h4, if_neg h5, if_neg h6, if_neg h7, if_neg h8, if_neg hA, if_neg hB, if_pos hC, if_pos hc1, if_pos hc2, if_pos hc3]⟩)))
        · exact Or.inr (Or.inr (Or.inr (Or.inl ⟨hC, _, by unfold validationStep; rw [if_neg h1, if_neg h2, if_neg h3, if_neg h4, if_neg h5, if_neg h6, if_neg h7, if_neg h8, if_neg hA, if_neg hB, if_pos hC, if_pos hc1, if_pos hc2, if_neg hc3]⟩)))
      · exact Or.inr (Or.inr (Or.inr (Or.inr (Or.inr (Or.inr (Or.inr (Or.inr
          ⟨st.2, (by unfold validationStep; rw [if_neg h1, if_neg h2, if_neg h3, if_neg h4, if_neg h5, if_neg h6, if_neg h7, if_neg h8, if_neg hA, if_neg hB, if_pos hC, if_pos hc1, if_neg hc2]),
           fun hsec => Or.inr hsec⟩)))))))
    · exact Or.inr (Or.inr (Or.inr (Or.inr (Or.inr (Or.inr (Or.inr (Or.inr
        ⟨st.2, (by unfold validationStep; rw [if_neg h1, if_neg h2, if_neg h3, if_neg h4, if_neg h5, if_neg h6, if_neg h7, if_neg h8, if_neg hA, if_neg hB, if_pos hC, if_neg hc1]),
         fun hsec => Or.inr hsec⟩)))))))
  by_cases hD : st.2 = "plan"
  · by_cases hp : goTrimSpace l ≠ ""
    · by_cases hq : (st.1.ExecutionPlan == "") = true
      · exact Or.inr (Or.inr (Or.inr (Or.inr (Or.inl ⟨hD, _, by unfold validationStep; rw [if_neg h1, if_neg h2, if_neg h3, if_neg h4, if_neg h5, if_neg h6, if_neg h7, if_neg h8, if_neg hA, if_neg hB, if_neg hC, if_pos hD, if_pos hp, if_pos hq]⟩))))
      · exact Or.inr (Or.inr (Or.inr (Or.inr (Or.inl ⟨hD, _, by unfold validationStep; rw [if_neg h1, if_neg h2, if_neg h3, if_neg h4, if_neg h5, if_neg h6, if_neg h7, if_neg h8, if_neg hA, if_neg hB, if_neg hC, if_pos hD, if_pos hp, if_neg hq]⟩))))
    · exact Or.inr (Or.inr (Or.inr (Or.inr (Or.inr (Or.inr (Or.inr (Or.inr
        ⟨st.2, (by unfold validationStep; rw [if_neg h1, if_neg h2, if_neg h3, if_neg h4, if_neg h5, if_neg h6, if_neg h7, if_neg h8, if_neg hA, if_neg hB, if_neg hC, if_pos hD, if_neg hp]),
         fun hsec => Or.inr hsec⟩)))))))
  by_cases hE : st.2 = "suggestions"
  · by_cases hb : (strStartsWith (goTrimSpace l) "-" || strStartsWith (goTrimSpace l) "•") = true
    · by_cases hg : bulletContent (goTrimSpace l) ≠ ""
      · exact Or.inr (Or.inr (Or.inr (Or.inr (Or.inr (Or.inr (Or.inr (Or.inl ⟨_, by unfold validationStep; rw [if_neg h1, if_neg h2, if_neg h3, if_neg h4, if_neg h5, if_neg h6, if_neg h7, if_neg h8, if_neg hA, if_neg hB, if_neg hC, if_neg hD, if_pos hE, if_pos hb, if_pos hg]⟩)))))))
      · exact Or.inr (Or.inr (Or.inr (Or.inr (Or.inr (Or.inr (Or.inr (Or.inr
          ⟨st.2, (by unfold validationStep; rw [if_neg h1, if_neg h2, if_neg h3, if_neg h4, if_neg h5, if_neg h6, if_neg h7, if_neg h8, if_neg hA, if_neg hB, if_neg hC, if_neg hD, if_pos hE, if_pos hb, if_neg hg]),
           fun hsec => Or.inr hsec⟩)))))))
    · exact Or.inr (Or.inr (Or.inr (Or.inr (Or.inr (Or.inr (Or.inr (Or.inr
        ⟨st.2, (by unfold validationStep; rw [if_neg h1, if_neg h2, if_neg h3, if_neg h4, if_neg h5, if_neg h6, if_neg h7, if_neg h8, if_neg hA, if_neg hB, if_neg hC, if_neg hD, if_pos hE, if_neg hb]),
         fun hsec => Or.inr hsec⟩)))))))
  · exact Or.inr (Or.inr (Or.inr (Or.inr (Or.inr (Or.inr (Or.inr (Or.inr
      ⟨st.2, (by unfold validationStep; rw [if_neg h1, if_neg h2, if_neg h3, if_neg h4, if_neg h5, if_neg h6, if_neg h7, if_neg h8, if_neg hA, if_neg hB, if_neg hC, if_neg hD, if_neg hE]),
       fun hsec => Or.inr hsec⟩)))))))

/-! ## Claim theorems -/

/-- C1. The table-body capture of ParseDDL is the lazy
`\(([\s\S]*?)\)`, which ends at the first closing parenthesis, not at
the matching one: for
`CREATE TABLE b (x INT, y DECIMAL(10,2) DEFAULT 0.00)` the captured body
is `x INT, y DECIMAL(10,2`, so column y is parsed with type DECIMAL and
an empty default — the `DEFAULT 0.00` clause is lost, contradicting the
claim that the parenthesis inside DECIMAL(10,2) does not terminate the
table body prematurely. -/
theorem c1_paren_truncation_drops_default :
    scanCreateTables "CREATE TABLE b (x INT, y DECIMAL(10,2) DEFAULT 0.00)" =
      [("b", "x INT, y DECIMAL(10,2")] ∧
    parseDDLSchema "CREATE TABLE b (x INT, y DECIMAL(10,2) DEFAULT 0.00)" "mysql" =
      { Database := ""
        Tables := [{ Name := "b"
                     Columns := [{ Name := "x", Typ := "INT", Nullable := true },
                                 { Name := "y", Typ := "DECIMAL", Nullable := true,
                                   Default := "" }] }]
        DBType := "mysql" } ∧
    ¬ ∃ col ∈ (parseDDLSchema "CREATE TABLE b (x INT, y DECIMAL(10,2) DEFAULT 0.00)"
        "mysql").Tables.flatMap Table.Columns, col.Name = "y" ∧ col.Default = "0.00" := by
  refine ⟨by decide, by decide, ?_⟩
  decide

/-- C2. For
`CREATE TABLE t (id INT PRIMARY KEY AUTO_INCREMENT, name VARCHAR(100) NOT NULL)`
the lazy body capture stops at the parenthesis of VARCHAR(100), cutting
off ` NOT NULL)`. One table t with two columns is produced and id
carries isPrimaryKey and isAutoIncrement, but both columns come out
nullable, contradicting the claimed nullable=false for id and name. -/
theorem c2_truncated_body_loses_not_null :
    parseDDLSchema
        "CREATE TABLE t (id INT PRIMARY KEY AUTO_INCREMENT, name VARCHAR(100) NOT NULL)"
        "mysql" =
      { Database := ""
        Tables := [{ Name := "t"
                     Columns := [{ Name := "id", Typ := "INT", Nullable := true,
                                   IsPK := true, IsAutoIncr := true },
                                 { Name := "name", Typ := "VARCHAR", Nullable := true }] }]
        DBType := "mysql" } := by
  decide

/-- C3. ParseDDL returns a nil error on every input: the Except is
always ok, and when no CREATE TABLE statement is recognized the schema
has an empty table list. -/
theorem c3_parseDDL_total (ddl dbType : String) :
    ParseDDL ddl dbType = .ok (parseDDLSchema ddl dbType) ∧
    (scanCreateTables ddl = [] → (parseDDLSchema ddl dbType).Tables = []) := by
  refine ⟨rfl, fun h => ?_⟩
  simp [parseDDLSchema, h, parseIndexes_nil]

/-- Witness for C3 at a concrete table-free input. -/
theorem c3_parseDDL_total_witness :
    scanCreateTables "no tables here" = [] ∧
    (parseDDLSchema "no tables here" "mysql").Tables = [] :=
  ⟨by decide, (c3_parseDDL_total "no tables here" "mysql").2 (by decide)⟩

/-- C5. The generation-mode extractor on the claimed model text yields
query SELECT 1, explanation ok, and the two tips in order. -/
theorem c5_generation_extractor_example :
    parseQueryResponse "SQL:\nSELECT 1\n\n설명:\nok\n\n최적화 팁:\n- use index\n- avoid scan" =
      ("SELECT 1", "ok", ["use index", "avoid scan"]) := by
  decide

/-- C7 counterexample. parseIssue strips the Korean labels 위치: and
해결:, not the English `location:` and `suggestion:`; on the claimed
line the labels survive in the parsed fields, so the claimed
location=users.email and suggestion=add index are false. -/
theorem c7_issue_line_counterexample :
    parseIssue "- [warning] missing index | location: users.email | suggestion: add index" =
      { Typ := "warning", Message := "missing index",
        Location := "location: users.email", Suggestion := "suggestion: add index" } ∧
    (parseIssue "- [warning] missing index | location: users.email | suggestion: add index").Location
      ≠ "users.email" := by
  exact ⟨by decide, by decide⟩

/-- C7 amended. On the claimed line the severity and message parse as
claimed but the English labels are kept verbatim; the labels the code
strips are the Korean 위치: and 해결: when they directly follow the
pipe, as the Korean-labelled variant shows. -/
theorem c7_issue_line_amended :
    parseIssue "- [warning] missing index | location: users.email | suggestion: add index" =
      { Typ := "warning", Message := "missing index",
        Location := "location: users.email", Suggestion := "suggestion: add index" } ∧
    parseIssue "- [warning] missing index |위치: users.email |해결: add index" =
      { Typ := "warning", Message := "missing index",
        Location := "users.email", Suggestion := "add index" } := by
  exact ⟨by decide, by decide⟩

/-- C8 counterexample. A DDL text that contains both the users table
definition and the unique index statement, yet whose parsed schema has
no users table at all: an earlier unterminated CREATE TABLE swallows the
users definition through the lazy body capture, so the claimed index
entry cannot be attached. -/
theorem c8_index_attach_counterexample :
    strContains
        "CREATE TABLE junk (x INT, CREATE TABLE users (id INT)); CREATE UNIQUE INDEX idx_e ON users (email)"
        "CREATE TABLE users (id INT)" = true ∧
    strContains
        "CREATE TABLE junk (x INT, CREATE TABLE users (id INT)); CREATE UNIQUE INDEX idx_e ON users (email)"
        "CREATE UNIQUE INDEX idx_e ON users (email)" = true ∧
    (parseDDLSchema
        "CREATE TABLE junk (x INT, CREATE TABLE users (id INT)); CREATE UNIQUE INDEX idx_e ON users (email)"
        "mysql").Tables.map Table.Name = ["junk"] := by
  refine ⟨by decide, by decide, by decide⟩

/-- C8 amended. When the users CREATE TABLE statement is itself
recognized as a table (in particular when the statements are
well-formed), the CREATE UNIQUE INDEX statement attaches the idx_e
entry — unique, over [email] — to the users table whether it appears
after or before the table definition: both orders parse to the same
schema. -/
theorem c8_index_attach_order_independent :
    parseDDLSchema "CREATE TABLE users (id INT);\nCREATE UNIQUE INDEX idx_e ON users (email)"
        "mysql" =
      parseDDLSchema "CREATE UNIQUE INDEX idx_e ON users (email);\nCREATE TABLE users (id INT)"
        "mysql" ∧
    (parseDDLSchema "CREATE TABLE users (id INT);\nCREATE UNIQUE INDEX idx_e ON users (email)"
        "mysql").Tables.map Table.Indexes =
      [[{ Name := "idx_e", Columns := ["email"], IsUnique := true, Typ := "BTREE" }]] ∧
    (parseDDLSchema "CREATE TABLE users (id INT);\nCREATE UNIQUE INDEX idx_e ON users (email)"
        "mysql").Tables.map Table.Name = ["users"] := by
  refine ⟨by decide, by decide, by decide⟩

/-- C6 counterexample. With the optimized-query section absent the field
does not always keep the pre-seeded original query verbatim: the final
cleanup trims it, so an original query with surrounding whitespace
comes back altered. -/
theorem c6_default_not_verbatim_counterexample :
    (parseValidationResponse "" " SELECT 1 ").OptimizedQuery = "SELECT 1" ∧
    (parseValidationResponse "" " SELECT 1 ").OptimizedQuery ≠ " SELECT 1 " := by
  exact ⟨by decide, by decide⟩

/-- C4 counterexample. The document `{}` is structurally valid — it
decodes into the zero Schema — but serializing that Schema back does
not reproduce `{}`: the canonical MarshalIndent form spells out every
non-omitempty field, so the byte-level round trip
toJSON(parseJSON(x)) == x fails. -/
theorem c4_string_roundtrip_counterexample :
    ParseJSON "\x7b\x7d" = .ok { Database := "", Tables := [], DBType := "" } ∧
    ToJSON { Database := "", Tables := [], DBType := "" } ≠ "\x7b\x7d" := by
  exact ⟨by rfl, by decide⟩


set_option maxHeartbeats 1000000 in
/-- One validationStep never changes the original query and keeps the
three list fields allocated. -/
theorem validationStep_fields (oq : String) (st : QueryValidation × String) (l : String) :
    ((validationStep oq st l).1.OriginalQuery = st.1.OriginalQuery) ∧
    (st.1.Issues.isSome = true → (validationStep oq st l).1.Issues.isSome = true) ∧
    (st.1.Suggestions.isSome = true → (validationStep oq st l).1.Suggestions.isSome = true) ∧
    (st.1.IndexUsage.isSome = true → (validationStep oq st l).1.IndexUsage.isSome = true) := by
  rcases validationStep_outcome oq st l with
    ⟨_, b, h⟩ | ⟨_, _, _, h⟩ | ⟨e, h⟩ | ⟨_, o, h⟩ | ⟨_, p, h⟩ | ⟨i, h⟩ | ⟨x, h⟩ | ⟨g, h⟩ | ⟨sec, h, _⟩ <;>
  rw [h] <;>
  exact ⟨rfl, fun h => (by first | exact h | exact rfl), fun h => (by first | exact h | exact rfl),
    fun h => (by first | exact h | exact rfl)⟩


set_option maxHeartbeats 1000000 in
/-- One validationStep leaves Score alone unless the line is a score
header whose value lies in 1..100. -/
theorem validationStep_Score (oq : String) (st : QueryValidation × String) (l : String)
    (h : strStartsWith (goTrimSpace l) "점수:" = true → ¬(0 < lineScore l ∧ lineScore l ≤ 100)) :
    (validationStep oq st l).1.Score = st.1.Score := by
  rcases validationStep_outcome oq st l with
    ⟨_, b, hq⟩ | ⟨hl, h1, h2, hq⟩ | ⟨e, hq⟩ | ⟨_, o, hq⟩ | ⟨_, p, hq⟩ | ⟨i, hq⟩ | ⟨x, hq⟩ | ⟨g, hq⟩ | ⟨sec, hq, _⟩
  · rw [hq]
  · exact absurd ⟨h1, h2⟩ (h hl)
  all_goals rw [hq]


set_option maxHeartbeats 1000000 in
/-- One validationStep leaves IsValid alone unless the line is a
validity header. -/
theorem validationStep_IsValid (oq : String) (st : QueryValidation × String) (l : String)
    (h : strStartsWith (goTrimSpace l) "유효성:" = false) :
    (validationStep oq st l).1.IsValid = st.1.IsValid := by
  rcases validationStep_outcome oq st l with
    ⟨hl, b, hq⟩ | ⟨_, _, _, hq⟩ | ⟨e, hq⟩ | ⟨_, o, hq⟩ | ⟨_, p, hq⟩ | ⟨i, hq⟩ | ⟨x, hq⟩ | ⟨g, hq⟩ | ⟨sec, hq, _⟩
  · rw [hl] at h; cases h
  all_goals rw [hq]


set_option maxHeartbeats 1000000 in
/-- Away from the optimized section, one validationStep neither touches
OptimizedQuery nor enters the optimized section without its header. -/
theorem validationStep_Optimized (oq : String) (st : QueryValidation × String) (l : String)
    (h : strStartsWith (goTrimSpace l) "최적화된 쿼리:" = false) (hs : st.2 ≠ "optimized") :
    (validationStep oq st l).1.OptimizedQuery = st.1.OptimizedQuery ∧
    (validationStep oq st l).2 ≠ "optimized" := by
  rcases validationStep_outcome oq st l with
    ⟨_, b, hq⟩ | ⟨_, _, _, hq⟩ | ⟨e, hq⟩ | ⟨hopt, o, hq⟩ | ⟨_, p, hq⟩ | ⟨i, hq⟩ | ⟨x, hq⟩ | ⟨g, hq⟩ | ⟨sec, hq, hg⟩
  · exact ⟨by rw [hq], by rw [hq]; exact hs⟩
  · exact ⟨by rw [hq], by rw [hq]; exact hs⟩
  · exact ⟨by rw [hq], by rw [hq]; exact hs⟩
  · exact absurd hopt hs
  · exact ⟨by rw [hq], by rw [hq]; exact hs⟩
  · exact ⟨by rw [hq], by rw [hq]; exact hs⟩
  · exact ⟨by rw [hq], by rw [hq]; exact hs⟩
  · exact ⟨by rw [hq], by rw [hq]; exact hs⟩
  · constructor
    · rw [hq]
    · rw [hq]
      intro hsec
      rcases hg hsec with hh | hh
      · rw [hh] at h; cases h
      · exact hs hh


set_option maxHeartbeats 1000000 in
/-- The whole line loop preserves the original query and the
allocatedness of the list fields. -/
theorem validationFold_fields (oq : String) (lines : List String) (init : QueryValidation × String) :
    ((lines.foldl (validationStep oq) init).1.OriginalQuery = init.1.OriginalQuery) ∧
    (init.1.Issues.isSome = true → (lines.foldl (validationStep oq) init).1.Issues.isSome = true) ∧
    (init.1.Suggestions.isSome = true → (lines.foldl (validationStep oq) init).1.Suggestions.isSome = true) ∧
    (init.1.IndexUsage.isSome = true → (lines.foldl (validationStep oq) init).1.IndexUsage.isSome = true) := by
  induction lines generalizing init with
  | nil => exact ⟨rfl, id, id, id⟩
  | cons l t ih =>
    obtain ⟨o1, i1, s1, x1⟩ := validationStep_fields oq init l
    obtain ⟨o2, i2, s2, x2⟩ := ih (validationStep oq init l)
    exact ⟨o2.trans o1, fun h => i2 (i1 h), fun h => s2 (s1 h), fun h => x2 (x1 h)⟩


set_option maxHeartbeats 1000000 in
/-- The line loop preserves Score when no line carries an admissible
score. -/
theorem validationFold_Score (oq : String) (lines : List String) (init : QueryValidation × String)
    (h : ∀ l ∈ lines, strStartsWith (goTrimSpace l) "점수:" = true →
      ¬(0 < lineScore l ∧ lineScore l ≤ 100)) :
    (lines.foldl (validationStep oq) init).1.Score = init.1.Score := by
  induction lines generalizing init with
  | nil => rfl
  | cons l t ih =>
    exact (ih (validationStep oq init l) (fun x hx => h x (List.mem_cons_of_mem l hx))).trans
      (validationStep_Score oq init l (h l (List.mem_cons_self l t)))


set_option maxHeartbeats 1000000 in
/-- The line loop preserves IsValid when no line carries the validity
header. -/
theorem validationFold_IsValid (oq : String) (lines : List String) (init : QueryValidation × String)
    (h : ∀ l ∈ lines, strStartsWith (goTrimSpace l) "유효성:" = false) :
    (lines.foldl (validationStep oq) init).1.IsValid = init.1.IsValid := by
  induction lines generalizing init with
  | nil => rfl
  | cons l t ih =>
    exact (ih (validationStep oq init l) (fun x hx => h x (List.mem_cons_of_mem l hx))).trans
      (validationStep_IsValid oq init l (h l (List.mem_cons_self l t)))


set_option maxHeartbeats 1000000 in
/-- The line loop preserves OptimizedQuery when no line carries the
optimized-query header. -/
theorem validationFold_Optimized (oq : String) (lines : List String) (init : QueryValidation × String)
    (h : ∀ l ∈ lines, strStartsWith (goTrimSpace l) "최적화된 쿼리:" = false)
    (hs : init.2 ≠ "optimized") :
    (lines.foldl (validationStep oq) init).1.OptimizedQuery = init.1.OptimizedQuery ∧
    (lines.foldl (validationStep oq) init).2 ≠ "optimized" := by
  induction lines generalizing init with
  | nil => exact ⟨rfl, hs⟩
  | cons l t ih =>
    obtain ⟨h1, h2⟩ := validationStep_Optimized oq init l (h l (List.mem_cons_self l t)) hs
    obtain ⟨h3, h4⟩ := ih (validationStep oq init l) (fun x hx => h x (List.mem_cons_of_mem l hx)) h2
    exact ⟨h3.trans h1, h4⟩


set_option maxHeartbeats 1000000 in
/-- C6 (amended). With no admissible score line the Score keeps its
pre-seeded 50 (in particular when the score header is absent, and when
every score token is unparseable or out of the 1..100 range); with no
validity header IsValid keeps its pre-seeded true; with no
optimized-query header OptimizedQuery is the pre-seeded original query
passed through the final cleanup. -/
theorem c6_validation_defaults (response originalQuery : String) :
    ((∀ l ∈ strSplit response '\n', strStartsWith (goTrimSpace l) "점수:" = true →
        ¬(0 < lineScore l ∧ lineScore l ≤ 100)) →
      (parseValidationResponse response originalQuery).Score = 50) ∧
    ((∀ l ∈ strSplit response '\n', strStartsWith (goTrimSpace l) "유효성:" = false) →
      (parseValidationResponse response originalQuery).IsValid = true) ∧
    ((∀ l ∈ strSplit response '\n', strStartsWith (goTrimSpace l) "최적화된 쿼리:" = false) →
      (parseValidationResponse response originalQuery).OptimizedQuery = optimizedCleanup originalQuery) := by
  refine ⟨fun h => ?_, fun h => ?_, fun h => ?_⟩
  · exact validationFold_Score originalQuery (strSplit response '\n')
      (validationDefaults originalQuery, "") h
  · exact validationFold_IsValid originalQuery (strSplit response '\n')
      (validationDefaults originalQuery, "") h
  · have := (validationFold_Optimized originalQuery (strSplit response '\n')
      (validationDefaults originalQuery, "") h
      (fun hx => absurd (show ("" : String) = "optimized" from hx) (by decide))).1
    show (if goTrimSpace (strDropSfx (strDropPfx (vrFold response originalQuery).OptimizedQuery "```sql") "```") = ""
         then originalQuery
         else goTrimSpace (strDropSfx (strDropPfx (vrFold response originalQuery).OptimizedQuery "```sql") "```")) =
      optimizedCleanup originalQuery
    rw [show (vrFold response originalQuery).OptimizedQuery = originalQuery from this]
    rfl

/-- Witness for C6 at a concrete header-free response. -/
theorem c6_validation_defaults_witness :
    (parseValidationResponse "hello" "SELECT 1").Score = 50 ∧
    (parseValidationResponse "hello" "SELECT 1").IsValid = true ∧
    (parseValidationResponse "hello" "SELECT 1").OptimizedQuery = optimizedCleanup "SELECT 1" :=
  ⟨(c6_validation_defaults "hello" "SELECT 1").1 (by decide),
   (c6_validation_defaults "hello" "SELECT 1").2.1 (by decide),
   (c6_validation_defaults "hello" "SELECT 1").2.2 (by decide)⟩

set_option maxHeartbeats 1000000 in
/-- C10. For every model text and original query, the validation
extractor returns the original query unchanged, and the Issues,
Suggestions and IndexUsage slices are non-nil (allocated empty before
scanning and only ever appended to). -/
theorem c10_extractor_invariants (response originalQuery : String) :
    (parseValidationResponse response originalQuery).OriginalQuery = originalQuery ∧
    (parseValidationResponse response originalQuery).Issues.isSome = true ∧
    (parseValidationResponse response originalQuery).Suggestions.isSome = true ∧
    (parseValidationResponse response originalQuery).IndexUsage.isSome = true := by
  obtain ⟨ho, hi, hs, hx⟩ := validationFold_fields originalQuery (strSplit response '\n')
    (validationDefaults originalQuery, "")
  exact ⟨ho, hi rfl, hs rfl, hx rfl⟩


/-- Effect of one keyed-fold step on the lookup of a given index name. -/
theorem lookupIdx_step {ρ : Type} (key colOf : ρ → String) (mkNew : ρ → Index)
    (hmk : ∀ r, (mkNew r).Columns = [colOf r])
    (acc : List (String × Index)) (r : ρ) (name : String) :
    (lookupIdx name (idxFoldStep key colOf mkNew acc r)).map Index.Columns =
      if key r = name then
        match (lookupIdx name acc).map Index.Columns with
        | some cols => some (cols ++ [colOf r])
        | none => some [colOf r]
      else (lookupIdx name acc).map Index.Columns := by
  induction acc with
  | nil =>
    by_cases hk : key r = name
    · simp [idxFoldStep, lookupIdx, if_pos hk, hmk r]
    · simp only [idxFoldStep, lookupIdx, if_neg hk]
  | cons p t ih =>
    obtain ⟨k, idx⟩ := p
    simp only [idxFoldStep]
    by_cases hkr : k = key r
    · rw [if_pos hkr]
      by_cases hk : key r = name
      · have hkn : k = name := hkr.trans hk
        simp only [lookupIdx, if_pos hkn, if_pos hk]
        simp
      · have hkn : k ≠ name := fun h => hk (hkr ▸ h)
        simp only [lookupIdx, if_neg hkn, if_neg hk]
    · rw [if_neg hkr]
      by_cases hkn : k = name
      · by_cases hk : key r = name
        · exact absurd (hk ▸ hkn) hkr
        · simp only [lookupIdx, if_pos hkn, if_neg hk]
      · simp only [lookupIdx, if_neg hkn]
        exact ih

/-- Lookup characterization of the whole keyed fold: the column list of
an entry extends with exactly the matching rows, in row order. -/
theorem lookupIdx_foldl {ρ : Type} (key colOf : ρ → String) (mkNew : ρ → Index)
    (hmk : ∀ r, (mkNew r).Columns = [colOf r])
    (rows : List ρ) (acc : List (String × Index)) (name : String) :
    (lookupIdx name (rows.foldl (idxFoldStep key colOf mkNew) acc)).map Index.Columns =
      match (lookupIdx name acc).map Index.Columns with
      | some cols => some (cols ++ (rows.filter (fun r => key r = name)).map colOf)
      | none =>
        if (rows.filter (fun r => key r = name)).isEmpty then none
        else some ((rows.filter (fun r => key r = name)).map colOf) := by
  induction rows generalizing acc with
  | nil =>
    cases hl : (lookupIdx name acc).map Index.Columns with
    | none => simp [hl]
    | some cols => simp [hl]
  | cons r rs ih =>
    rw [List.foldl_cons, ih (idxFoldStep key colOf mkNew acc r),
        lookupIdx_step key colOf mkNew hmk acc r name]
    by_cases hk : key r = name
    · rw [if_pos hk]
      cases hl : (lookupIdx name acc).map Index.Columns with
      | none => simp [List.filter_cons, hk]
      | some cols => simp [List.filter_cons, hk]
    · rw [if_neg hk]
      cases hl : (lookupIdx name acc).map Index.Columns with
      | none => simp [List.filter_cons, hk, hl]
      | some cols => simp [List.filter_cons, hk, hl]

end SqlGenius
namespace SqlGenius

/-- Any entry of the keyed fold carries exactly the column names of the
rows bearing its index name, in the order the rows were supplied. -/
theorem idxFold_columns {ρ : Type} (key colOf : ρ → String) (mkNew : ρ → Index)
    (hmk : ∀ r, (mkNew r).Columns = [colOf r])
    (rows : List ρ) (name : String) (idx : Index)
    (h : lookupIdx name (idxFold key colOf mkNew rows) = some idx) :
    idx.Columns = (rows.filter (fun r => key r = name)).map colOf := by
  have hf := lookupIdx_foldl key colOf mkNew hmk rows [] name
  rw [show rows.foldl (idxFoldStep key colOf mkNew) [] = idxFold key colOf mkNew rows from rfl,
      h] at hf
  simp only [lookupIdx, Option.map_none', Option.map_some'] at hf
  by_cases he : (rows.filter (fun r => key r = name)).isEmpty
  · rw [if_pos he] at hf; cases hf
  · rw [if_neg he] at hf; exact Option.some.inj hf

/-- The append loop over FK rows is a map: one record per row, in row
order. -/
theorem foldl_append_fk (rows : List FKRow) :
    ∀ acc : List FK, rows.foldl (fun fks r => fks ++ [fkOfRow r]) acc = acc ++ rows.map fkOfRow := by
  induction rows with
  | nil => intro acc; simp
  | cons r t ih => intro acc; simp [List.foldl_cons, ih]

/-- C9 (amended). The MySQL and Oracle getIndexes folds key their rows
by index name and each resulting entry preserves exactly the supplied
row order in its column list; foreign-key rows are not folded - the FK
list is one record per row, in row order. (The per-table index list
itself is emitted by ranging over a Go map, whose iteration order is
unspecified; the embedding lists entries in insertion order.) -/
theorem c9_keyed_folds :
    (∀ (rows : List MySQLIndexRow) (name : String) (idx : Index),
      lookupIdx name (mysqlIndexMap rows) = some idx →
      idx.Columns = (rows.filter (fun r => r.indexName = name)).map (fun r => r.columnName)) ∧
    (∀ (rows : List OracleIndexRow) (name : String) (idx : Index),
      lookupIdx name (oracleIndexMap rows) = some idx →
      idx.Columns = (rows.filter (fun r => r.indexName = name)).map (fun r => r.columnName)) ∧
    (∀ rows : List FKRow, mysqlGetForeignKeys rows = rows.map fkOfRow) := by
  refine ⟨?_, ?_, ?_⟩
  · intro rows name idx h
    unfold mysqlIndexMap at h
    exact idxFold_columns _ _ _ (fun r => rfl) rows name idx h
  · intro rows name idx h
    unfold oracleIndexMap at h
    exact idxFold_columns _ _ _ (fun r => rfl) rows name idx h
  · intro rows
    simpa using foldl_append_fk rows []

/-- Witness for C9 at a concrete three-row index metadata set. -/
theorem c9_keyed_folds_witness :
    lookupIdx "i1" (mysqlIndexMap
        [{ indexName := "i1", columnName := "a", nonUnique := 0, indexType := "BTREE" },
         { indexName := "i2", columnName := "b", nonUnique := 1, indexType := "BTREE" },
         { indexName := "i1", columnName := "c", nonUnique := 0, indexType := "BTREE" }]) =
      some { Name := "i1", Columns := ["a", "c"], IsUnique := true, Typ := "BTREE" } ∧
    (Index.Columns { Name := "i1", Columns := ["a", "c"], IsUnique := true, Typ := "BTREE" }) =
      (([{ indexName := "i1", columnName := "a", nonUnique := 0, indexType := "BTREE" },
         { indexName := "i2", columnName := "b", nonUnique := 1, indexType := "BTREE" },
         { indexName := "i1", columnName := "c", nonUnique := 0, indexType := "BTREE" }] :
          List MySQLIndexRow).filter (fun r => r.indexName = "i1")).map (fun r => r.columnName) :=
  ⟨by decide, c9_keyed_folds.1 _ "i1" _ (by decide)⟩

/-- C9 counterexample. Two foreign-key rows sharing the constraint name
fk1 produce two separate FK records, not one folded record keyed by
constraint name: the claimed fold over FK rows does not happen. -/
theorem c9_fk_not_folded_counterexample :
    (mysqlGetForeignKeys
        [{ name := "fk1", column := "a", refTable := "t", refColumn := "x" },
         { name := "fk1", column := "b", refTable := "t", refColumn := "y" }]).map FK.Name =
      ["fk1", "fk1"] ∧
    ¬ ((mysqlGetForeignKeys
        [{ name := "fk1", column := "a", refTable := "t", refColumn := "x" },
         { name := "fk1", column := "b", refTable := "t", refColumn := "y" }]).countP
          (fun fk => fk.Name == "fk1") ≤ 1) := by
  exact ⟨by decide, by decide⟩


/-- Binding an ok value in the Except monad applies the continuation. -/
theorem exBind_ok {α β : Type} (a : α) (f : α → Except String β) :
    (Except.ok a : Except String α).bind f = f a := rfl

/-- Element-wise decoding inverts element-wise encoding. -/
theorem decodeArr_map {α : Type} (dec : Json → Except String α) (enc : α → Json)
    (h : ∀ x, dec (enc x) = .ok x) : ∀ l : List α, decodeArr dec (l.map enc) = .ok l := by
  intro l
  induction l with
  | nil => rfl
  | cons x t ih =>
    simp only [List.map_cons, decodeArr, h x, ih]
    rfl

/-- Decoding inverts encoding for columns, the omitempty fields in all
four combinations. -/
theorem decode_encode_column (c : Column) : decodeColumn (encodeColumn c) = .ok c := by
  obtain ⟨n, t, nu, d, cm, pk, fk, u, ai⟩ := c
  by_cases hD : d = "" <;> by_cases hC : cm = ""
  · subst hD; subst hC; rfl
  · subst hD
    simp only [encodeColumn]
    rw [if_neg (by simp), if_pos hC]
    rfl
  · subst hC
    simp only [encodeColumn]
    rw [if_pos hD, if_neg (by simp)]
    rfl
  · simp only [encodeColumn]
    rw [if_pos hD, if_pos hC]
    rfl

/-- Decoding inverts encoding for foreign keys. -/
theorem decode_encode_fk (fk : FK) : decodeFK (encodeFK fk) = .ok fk := by
  obtain ⟨n, c, rt, rc, od, ou⟩ := fk
  by_cases hD : od = "" <;> by_cases hU : ou = ""
  · subst hD; subst hU; rfl
  · subst hD
    simp only [encodeFK]
    rw [if_neg (by simp), if_pos hU]
    rfl
  · subst hU
    simp only [encodeFK]
    rw [if_pos hD, if_neg (by simp)]
    rfl
  · simp only [encodeFK]
    rw [if_pos hD, if_pos hU]
    rfl

/-- Decoding inverts encoding for indexes. -/
theorem decode_encode_index (idx : Index) : decodeIndex (encodeIndex idx) = .ok idx := by
  obtain ⟨n, cols, u, t⟩ := idx
  have h1 : decodeArr decodeStr (cols.map Json.str) = .ok cols :=
    decodeArr_map decodeStr Json.str (fun _ => rfl) cols
  calc decodeIndex (encodeIndex ⟨n, cols, u, t⟩)
      = (decodeArr decodeStr (cols.map Json.str)).bind
          (fun columns => Except.ok ⟨n, columns, u, t⟩) := rfl
    _ = .ok ⟨n, cols, u, t⟩ := by rw [h1]; rfl

/-- Decoding inverts encoding for tables. -/
theorem decode_encode_table (t : Table) : decodeTable (encodeTable t) = .ok t := by
  obtain ⟨n, cols, pks, fks, idxs⟩ := t
  have hc := decodeArr_map decodeColumn encodeColumn decode_encode_column cols
  have hp := decodeArr_map decodeStr Json.str (fun _ => rfl) pks
  have hf := decodeArr_map decodeFK encodeFK decode_encode_fk fks
  have hi := decodeArr_map decodeIndex encodeIndex decode_encode_index idxs
  calc decodeTable (encodeTable ⟨n, cols, pks, fks, idxs⟩)
      = (decodeArr decodeColumn (cols.map encodeColumn)).bind (fun columns =>
          (decodeArr decodeStr (pks.map Json.str)).bind (fun primaryKey =>
            (decodeArr decodeFK (fks.map encodeFK)).bind (fun foreignKeys =>
              (decodeArr decodeIndex (idxs.map encodeIndex)).bind (fun indexes =>
                Except.ok ⟨n, columns, primaryKey, foreignKeys, indexes⟩)))) := rfl
    _ = .ok ⟨n, cols, pks, fks, idxs⟩ := by
        simp only [hc, hp, hf, hi, exBind_ok]

/-- Decoding inverts encoding for schemas. -/
theorem decode_encode_schema (s : Schema) : decodeSchema (encodeSchema s) = .ok s := by
  obtain ⟨db, tables, ty⟩ := s
  have ht := decodeArr_map decodeTable encodeTable decode_encode_table tables
  calc decodeSchema (encodeSchema ⟨db, tables, ty⟩)
      = (decodeArr decodeTable (tables.map encodeTable)).bind (fun ts =>
          Except.ok ⟨db, ts, ty⟩) := rfl
    _ = .ok ⟨db, tables, ty⟩ := by simp only [ht, exBind_ok]

set_option maxRecDepth 8000 in
/-- C4 (amended). The round trip is lossless in the complementary
direction: decoding the JSON encoding of any Schema returns that Schema
unchanged, and on a canonical document — the MarshalIndent serialization
of a concrete Schema — the full string-level parse inverts the
serialization. The byte-level identity of the original claim holds only
for such canonical documents. -/
theorem c4_value_roundtrip :
    (∀ s : Schema, decodeSchema (encodeSchema s) = .ok s) ∧
    (ParseJSON (ToJSON sampleSchema)).toOption = some sampleSchema :=
  ⟨decode_encode_schema, by decide⟩

end SqlGenius
